import Mathlib

/-!
# CSV Row Normalizer of cardguard-frontend — shallow embedding

This file embeds the dual-format CSV parser `parseCSVBuiltIn` of the
repository (source lines 49–90) and the caller-level required-column
validation of `BatchPage.handleFile` (source lines 721–726), and proves
the specification's claims about them.

JavaScript strings are modelled as Lean `String`s; JavaScript numbers are
modelled by `JSNumber` (NaN, the two infinities, and finite values as
rationals — the parser only classifies and stores numbers, it performs no
arithmetic on them, so the rational stands in for the IEEE double).
JavaScript record objects are modelled as association lists with
JavaScript's insertion-order / overwrite-in-place key semantics.
-/

set_option maxRecDepth 20000

namespace CardGuard

/-- A JavaScript number as far as this program observes it: NaN, ±Infinity,
or a finite value (modelled as the exact rational the literal denotes). -/
inductive JSNumber where
  | nan
  | posInf
  | negInf
  | fin (q : ℚ)
deriving DecidableEq, Repr

/-- A JavaScript value as stored in a parsed record. `nullV` and `undef`
are present so that the row filter `v !== "" && v !== null` and the claims
about null/undefined can be stated faithfully. -/
inductive JSValue where
  | num (n : JSNumber)
  | str (s : String)
  | nullV
  | undef
deriving DecidableEq, Repr

/-- `true` on the code points JavaScript's `String.prototype.trim` strips
(ECMAScript WhiteSpace and LineTerminator). -/
def isJsWhitespace (c : Char) : Bool :=
  c == ' ' || c == '\t' || c == '\n' || c == '\r' ||
  c == Char.ofNat 0x0B || c == Char.ofNat 0x0C ||
  c == Char.ofNat 0xA0 || c == Char.ofNat 0xFEFF ||
  c == Char.ofNat 0x1680 ||
  decide (0x2000 ≤ c.toNat ∧ c.toNat ≤ 0x200A) ||
  c == Char.ofNat 0x2028 || c == Char.ofNat 0x2029 ||
  c == Char.ofNat 0x202F || c == Char.ofNat 0x205F || c == Char.ofNat 0x3000

/-- Models JavaScript `s.trim()`. -/
def jsTrim (s : String) : String :=
  ⟨((s.data.dropWhile isJsWhitespace).reverse.dropWhile isJsWhitespace).reverse⟩

/-- Models JavaScript `s.split(/\r?\n/)`: a segment ends at each `"\n"`,
with an immediately preceding `"\r"` consumed with it; a lone `"\r"` does
not end a segment. -/
def splitNewlinesAux : List Char → List Char → List String
  | [], acc => [⟨acc.reverse⟩]
  | '\r' :: '\n' :: rest, acc => ⟨acc.reverse⟩ :: splitNewlinesAux rest []
  | '\n' :: rest, acc => ⟨acc.reverse⟩ :: splitNewlinesAux rest []
  | c :: rest, acc => splitNewlinesAux rest (c :: acc)

def jsSplitLines (s : String) : List String := splitNewlinesAux s.data []

/-- Models JavaScript `s.split(",")`. -/
def splitCommaAux : List Char → List Char → List String
  | [], acc => [⟨acc.reverse⟩]
  | ',' :: rest, acc => ⟨acc.reverse⟩ :: splitCommaAux rest []
  | c :: rest, acc => splitCommaAux rest (c :: acc)

def jsSplitComma (s : String) : List String := splitCommaAux s.data []

/-- Models JavaScript `s.startsWith('"')`. -/
def jsStartsWithQuote (s : String) : Bool := s.data.head? == some '"'

/-- Models JavaScript `s.endsWith('"')`. -/
def jsEndsWithQuote (s : String) : Bool := s.data.getLast? == some '"'

/-- Models JavaScript `s.slice(1, -1)`: the characters strictly between
the first and the last position (empty when the string has fewer than two
characters). -/
def jsSliceOneNegOne (s : String) : String :=
  ⟨(s.data.take (s.data.length - 1)).drop 1⟩

/-- Models JavaScript `s.includes('"')`. -/
def jsIncludesQuote (s : String) : Bool := s.data.any (fun c => c == '"')

/-- Models JavaScript `s.replace(/^"|"$/g, "")`: the global scan removes a
double-quote at position 0 if present, then (resuming after it) a
double-quote at the final position if present and not already consumed —
i.e. each end is stripped independently of the other. -/
def jsStripOuterQuotes (s : String) : String :=
  let a := if jsStartsWithQuote s then ⟨s.data.drop 1⟩ else s
  if jsEndsWithQuote a then ⟨a.data.take (a.data.length - 1)⟩ else a

/-! ## The JavaScript string-to-number coercion

Models ECMAScript `StringToNumber` (the conversion performed by
`isNaN(raw)` and `Number(raw)` on a string argument): whitespace-trim,
empty means 0, hex/octal/binary literals, otherwise an optionally signed
decimal literal or `Infinity`, anything else NaN. -/

def digitVal (c : Char) : ℕ := c.toNat - 48

def decDigitsToNat (cs : List Char) : ℕ :=
  cs.foldl (fun n c => 10 * n + digitVal c) 0

def isHexDigitB (c : Char) : Bool :=
  c.isDigit || decide ('a' ≤ c ∧ c ≤ 'f') || decide ('A' ≤ c ∧ c ≤ 'F')

def isOctDigitB (c : Char) : Bool := decide ('0' ≤ c ∧ c ≤ '7')

def isBinDigitB (c : Char) : Bool := c == '0' || c == '1'

def hexVal (c : Char) : ℕ :=
  if c.isDigit then c.toNat - 48
  else if decide ('a' ≤ c) then c.toNat - 87
  else c.toNat - 55

def radixDigitsToNat (b : ℕ) (cs : List Char) : ℕ :=
  cs.foldl (fun n c => b * n + hexVal c) 0

/-- `0x…` / `0o…` / `0b…` NonDecimalIntegerLiteral (no sign admitted). -/
def parseNonDecimal : List Char → Option ℚ
  | '0' :: x :: rest =>
    if (x == 'x' || x == 'X') && !rest.isEmpty && rest.all isHexDigitB then
      some (radixDigitsToNat 16 rest)
    else if (x == 'o' || x == 'O') && !rest.isEmpty && rest.all isOctDigitB then
      some (radixDigitsToNat 8 rest)
    else if (x == 'b' || x == 'B') && !rest.isEmpty && rest.all isBinDigitB then
      some (radixDigitsToNat 2 rest)
    else none
  | _ => none

/-- StrUnsignedDecimalLiteral without the `Infinity` alternative:
`Digits [. Digits?] [Exponent]` or `. Digits [Exponent]`, consuming the
whole input; yields the exact rational value. -/
def parseStrUnsignedDecimal (cs : List Char) : Option ℚ :=
  let intDigits := cs.takeWhile Char.isDigit
  let rest1 := cs.dropWhile Char.isDigit
  let fracAndRest : List Char × List Char :=
    match rest1 with
    | '.' :: r => (r.takeWhile Char.isDigit, r.dropWhile Char.isDigit)
    | _ => ([], rest1)
  let fracDigits := fracAndRest.1
  let rest2 := if rest1.head? == some '.' then fracAndRest.2 else rest1
  if intDigits.isEmpty && fracDigits.isEmpty then none
  else
    let mantissa : ℚ :=
      (decDigitsToNat intDigits : ℚ) +
        (decDigitsToNat fracDigits : ℚ) / ((10 : ℚ) ^ fracDigits.length)
    match rest2 with
    | [] => some mantissa
    | e :: r =>
      if e == 'e' || e == 'E' then
        let signAndRest : ℤ × List Char :=
          match r with
          | '+' :: t => (1, t)
          | '-' :: t => (-1, t)
          | _ => (1, r)
        let ds := signAndRest.2.takeWhile Char.isDigit
        let rest3 := signAndRest.2.dropWhile Char.isDigit
        if ds.isEmpty || !rest3.isEmpty then none
        else some (mantissa * (10 : ℚ) ^ (signAndRest.1 * (decDigitsToNat ds : ℤ)))
      else none

/-- ECMAScript `StringToNumber` on the full string. -/
def jsStringToNumber (s : String) : JSNumber :=
  let t := (jsTrim s).data
  match t with
  | [] => .fin 0
  | _ :: _ =>
    match parseNonDecimal t with
    | some q => .fin q
    | none =>
      let signAndBody : ℚ × List Char :=
        match t with
        | '+' :: r => (1, r)
        | '-' :: r => (-1, r)
        | _ => (1, t)
      if signAndBody.2 = "Infinity".data then
        if signAndBody.1 = 1 then .posInf else .negInf
      else
        match parseStrUnsignedDecimal signAndBody.2 with
        | some q => .fin (signAndBody.1 * q)
        | none => .nan

/-- Models `isNaN(raw)` for a string argument. -/
def jsIsNaN (s : String) : Bool := jsStringToNumber s == .nan

/-! ## Record construction (JavaScript object semantics) -/

/-- Models `obj[k] = v` on a plain object: overwrite in place when the key
exists, else append (insertion order preserved). -/
def objSet (o : List (String × JSValue)) (k : String) (v : JSValue) :
    List (String × JSValue) :=
  if o.any (fun p => p.1 == k) then
    o.map (fun p => if p.1 == k then (k, v) else p)
  else o ++ [(k, v)]

/-- Models `raw !== "" && !isNaN(raw) ? Number(raw) : raw` (line 83). -/
def typeField (raw : String) : JSValue :=
  if raw ≠ "" ∧ ¬ jsIsNaN raw then .num (jsStringToNumber raw) else .str raw

/-- Models `headers.forEach((h, i) => { obj[h] = … vals[i] ?? "" … })`
(lines 81–84), with `i` the running index. -/
def buildRecordAux (vals : List String) :
    List String → ℕ → List (String × JSValue) → List (String × JSValue)
  | [], _, o => o
  | h :: hs, i, o =>
    buildRecordAux vals hs (i + 1) (objSet o h (typeField (vals.getD i "")))

def buildRecord (headers vals : List String) : List (String × JSValue) :=
  buildRecordAux vals headers 0 []

/-- Models the row filter
`Object.values(r).some(v => v !== "" && v !== null)` (line 87). -/
def keptRecord (r : List (String × JSValue)) : Bool :=
  (r.map Prod.snd).any (fun v => !(v == .str "") && !(v == .nullV))

/-! ## The parser `parseCSVBuiltIn` (source lines 49–90) -/

/-- Line 50: `text.trim().split(/\r?\n/).filter(l => l.trim())`. -/
def survivingLines (text : String) : List String :=
  (jsSplitLines (jsTrim text)).filter (fun l => !(jsTrim l == ""))

/-- Line 55: `lines[0].trim()`. -/
def firstLineOf (text : String) : String :=
  jsTrim ((survivingLines text).headD "")

/-- Lines 56–59: the quoted-row format detection. -/
def isQuotedRowOf (text : String) : Bool :=
  jsStartsWithQuote (firstLineOf text) && jsEndsWithQuote (firstLineOf text) &&
    !(jsIncludesQuote (jsSliceOneNegOne (firstLineOf text)))

/-- Lines 65–68: per-line outer-quote stripping in the quoted-row branch. -/
def stripLineQuotes (l : String) : String :=
  let t := jsTrim l
  if jsStartsWithQuote t && jsEndsWithQuote t then jsSliceOneNegOne t else t

/-- Lines 63–75: the header list of the detected branch. -/
def headersOf (text : String) : List String :=
  if isQuotedRowOf text then
    (jsSplitComma (((survivingLines text).map stripLineQuotes).headD "")).map jsTrim
  else
    (jsSplitComma (firstLineOf text)).map (fun h => jsStripOuterQuotes (jsTrim h))

/-- Lines 63–75: the data lines of the detected branch. -/
def dataLinesOf (text : String) : List String :=
  if isQuotedRowOf text then ((survivingLines text).map stripLineQuotes).tail
  else (survivingLines text).tail

/-- Lines 78–85: one record from one data line. -/
def recordOfLine (headers : List String) (line : String) :
    List (String × JSValue) :=
  buildRecord headers ((jsSplitComma line).map (fun v => jsStripOuterQuotes (jsTrim v)))

/-- Lines 77–87: all surviving records. -/
def rowsOf (text : String) : List (List (String × JSValue)) :=
  ((dataLinesOf text).map (recordOfLine (headersOf text))).filter keptRecord

structure ParsedTable where
  headers : List String
  rows : List (List (String × JSValue))
deriving DecidableEq, Repr

/-- The whole of `parseCSVBuiltIn` (lines 49–90): `throw` is modelled by
`Except.error` with the thrown message. -/
def parseCSVBuiltIn (text : String) : Except String ParsedTable :=
  if (survivingLines text).isEmpty then .error "Empty file"
  else .ok ⟨headersOf text, rowsOf text⟩

deriving instance DecidableEq for Except

/-! ## Caller-level required-column validation (`BatchPage.handleFile`) -/

/-- Source line 683. -/
def REQ_COLS : List String :=
  ["step", "type", "amount", "oldbalanceOrg", "newbalanceOrig",
   "oldbalanceDest", "newbalanceDest"]

/-- Line 722: `REQ_COLS.filter(c => !headers.includes(c))`, generalised over
the required set exactly as the caller passes it. -/
def missingColumns (req headers : List String) : List String :=
  req.filter (fun c => !(headers.contains c))

/-- Models `miss.join(", ")` / `headers.join(", ")`. -/
def joinComma : List String → String
  | [] => ""
  | [s] => s
  | s :: rest => s ++ ", " ++ joinComma rest

/-- Lines 722–726: the error message shown when required columns are
missing, `none` when the header set validates. -/
def validateColumns (req headers : List String) : Option String :=
  let miss := missingColumns req headers
  if miss.isEmpty then none
  else some ("Missing columns: " ++ joinComma miss ++ ". Found: " ++ joinComma headers)

/-! ## Definitions taken from the specification's words (for refinement
claims), kept separate from the code-derived definitions above. -/

/-- From the spec: "the substring between the outer quotes". -/
def betweenOuterQuotes (line : String) : String :=
  ⟨(line.data.drop 1).dropLast⟩

/-- From the spec: classify as quoted-row format iff the trimmed first line
"starts with a double-quote, ends with a double-quote, and the substring
between the outer quotes contains no further double-quote characters". -/
def QuotedRowFormatSpec (line : String) : Prop :=
  line.data.head? = some '"' ∧ line.data.getLast? = some '"' ∧
    ∀ c ∈ (betweenOuterQuotes line).data, c ≠ '"'

/-- From the spec: "strip one leading and one trailing double-quote from
each field if both are present" — and leave the field untouched otherwise. -/
def stripBothEndsOnly (s : String) : String :=
  if s.data.head? = some '"' ∧ s.data.getLast? = some '"' ∧ 2 ≤ s.data.length then
    ⟨(s.data.drop 1).dropLast⟩
  else s

/-- The amended per-field quote rule: strip one leading double-quote when
present, and one trailing double-quote when present, each independently of
the other. -/
def stripEndsIndependently (s : String) : String :=
  let l₁ := if s.data.head? = some '"' then s.data.drop 1 else s.data
  if l₁.getLast? = some '"' then ⟨l₁.dropLast⟩ else ⟨l₁⟩

/-- From the spec: a string "passes a 'is this a valid finite number' test"
when the JavaScript numeric coercion of the string is an actual finite
number (not NaN and not an infinity). -/
def isValidFiniteNumberStr (s : String) : Bool :=
  match jsStringToNumber s with
  | .fin _ => true
  | _ => false

/-- `true` exactly on values of the `num` constructor. -/
def JSValue.isNum : JSValue → Bool
  | .num _ => true
  | _ => false

/-! ## Helper lemmas -/

theorem objSet_snd {Q : JSValue → Prop} {o : List (String × JSValue)} {k : String}
    {v : JSValue} (ho : ∀ p ∈ o, Q p.2) (hv : Q v) :
    ∀ p ∈ objSet o k v, Q p.2 := by
  intro p hp
  unfold objSet at hp
  split at hp
  · rcases List.mem_map.mp hp with ⟨q, hq, rfl⟩
    split
    · exact hv
    · exact ho q hq
  · rcases List.mem_append.mp hp with h | h
    · exact ho p h
    · rcases List.mem_singleton.mp h with rfl
      exact hv

theorem buildRecordAux_snd {Q : JSValue → Prop} (hQ : ∀ raw, Q (typeField raw)) :
    ∀ (hs vals : List String) (i : ℕ) (o : List (String × JSValue)),
      (∀ p ∈ o, Q p.2) → ∀ p ∈ buildRecordAux vals hs i o, Q p.2 := by
  intro hs
  induction hs with
  | nil => intro vals i o ho p hp; exact ho p hp
  | cons h t ih =>
    intro vals i o ho p hp
    exact ih vals (i + 1) _ (objSet_snd ho (hQ _)) p hp

theorem typeField_num_or_str (raw : String) :
    (∃ n, typeField raw = .num n) ∨ typeField raw = .str raw := by
  unfold typeField
  split
  · exact Or.inl ⟨_, rfl⟩
  · exact Or.inr rfl

theorem recordOfLine_snd (headers : List String) (line : String) :
    ∀ p ∈ recordOfLine headers line,
      (∃ n, p.2 = JSValue.num n) ∨ ∃ s, p.2 = JSValue.str s := by
  apply buildRecordAux_snd
    (Q := fun v => (∃ n, v = JSValue.num n) ∨ ∃ s, v = JSValue.str s)
  · intro raw
    rcases typeField_num_or_str raw with ⟨n, hn⟩ | hs
    · exact Or.inl ⟨n, hn⟩
    · exact Or.inr ⟨raw, hs⟩
  · intro p hp
    simp at hp

theorem recordOfLine_not_null (headers : List String) (line : String) :
    ∀ p ∈ recordOfLine headers line, p.2 ≠ JSValue.nullV ∧ p.2 ≠ JSValue.undef := by
  intro p hp
  rcases recordOfLine_snd headers line p hp with ⟨n, hn⟩ | ⟨s, hs⟩
  · simp [hn]
  · simp [hs]

theorem keptRecord_eq_false_iff (r : List (String × JSValue)) :
    keptRecord r = false ↔ ∀ p ∈ r, p.2 = JSValue.str "" ∨ p.2 = JSValue.nullV := by
  unfold keptRecord
  rw [List.any_eq_false]
  constructor
  · intro H p hp
    have hx := H p.2 (List.mem_map.mpr ⟨p, hp, rfl⟩)
    by_contra hcon
    push_neg at hcon
    apply hx
    simp [hcon.1, hcon.2]
  · intro H x hx
    rcases List.mem_map.mp hx with ⟨p, hp, rfl⟩
    rcases H p hp with h | h <;> simp [h]

theorem parse_ok_iff (text : String) (table : ParsedTable) :
    parseCSVBuiltIn text = .ok table ↔
      (survivingLines text).isEmpty = false ∧ table = ⟨headersOf text, rowsOf text⟩ := by
  unfold parseCSVBuiltIn
  split
  · rename_i h
    constructor
    · intro hc; cases hc
    · rintro ⟨h1, h2⟩
      rw [h] at h1
      cases h1
  · rename_i h
    constructor
    · intro hc
      refine ⟨by simpa using h, ?_⟩
      cases hc
      rfl
    · rintro ⟨h1, rfl⟩
      rfl

theorem buildRecordAux_congr (vals vals' : List String) :
    ∀ (hs : List String) (i : ℕ) (o : List (String × JSValue)),
      (∀ j, i ≤ j → j < i + hs.length → vals.getD j "" = vals'.getD j "") →
      buildRecordAux vals hs i o = buildRecordAux vals' hs i o := by
  intro hs
  induction hs with
  | nil => intro i o _; rfl
  | cons hd tl ih =>
    intro i o h
    simp only [buildRecordAux]
    rw [h i (Nat.le_refl i) (by simp only [List.length_cons]; omega)]
    exact ih (i + 1) _ (fun j hj1 hj2 =>
      h j (by omega) (by simp only [List.length_cons]; omega))

theorem getD_take (vals : List String) (n j : ℕ) (hj : j < n) :
    (vals.take n).getD j "" = vals.getD j "" := by
  simp only [List.getD_eq_getElem?_getD, List.getElem?_take]
  rw [if_pos hj]

theorem getD_append_replicate (vals : List String) (m j : ℕ) :
    (vals ++ List.replicate m "").getD j "" = vals.getD j "" := by
  simp only [List.getD_eq_getElem?_getD, List.getElem?_append, List.getElem?_replicate]
  split
  · rfl
  · rename_i hlen
    have hnone : vals[j]? = none := by
      rw [List.getElem?_eq_none_iff]
      omega
    rw [hnone]
    split <;> rfl

/-- Shared equality between the code's global-regex quote strip and the
independent strip of each end. -/
theorem jsStripOuterQuotes_eq (s : String) :
    jsStripOuterQuotes s = stripEndsIndependently s := by
  unfold jsStripOuterQuotes stripEndsIndependently jsStartsWithQuote jsEndsWithQuote
  by_cases h1 : s.data.head? = some '"' <;>
    by_cases h2 : (s.data.drop 1).getLast? = some '"' <;>
    by_cases h3 : s.data.getLast? = some '"' <;>
    simp [h1, h2, h3, List.dropLast_eq_take, beq_iff_eq]

/-! ## The claims -/

/-- C1: a two-line input whose header line `a,b,c` and data line `1,2,3`
are each wrapped in one pair of outer double quotes parses to the same
`ParsedTable` as the unwrapped two-line text, namely headers
`["a","b","c"]` and one row mapping `a` to 1, `b` to 2 and `c` to 3. -/
theorem quotedRow_matches_standard (sep : String) (h : sep = "\n" ∨ sep = "\r\n") :
    parseCSVBuiltIn ("\"a,b,c\"" ++ sep ++ "\"1,2,3\"") =
        parseCSVBuiltIn ("a,b,c" ++ sep ++ "1,2,3") ∧
      parseCSVBuiltIn ("\"a,b,c\"" ++ sep ++ "\"1,2,3\"") =
        .ok ⟨["a", "b", "c"],
          [[("a", .num (.fin 1)), ("b", .num (.fin 2)), ("c", .num (.fin 3))]]⟩ := by
  rcases h with h | h <;> subst h
  · exact ⟨by with_unfolding_all rfl, by with_unfolding_all rfl⟩
  · exact ⟨by with_unfolding_all rfl, by with_unfolding_all rfl⟩

theorem quotedRow_matches_standard_witness :
    parseCSVBuiltIn ("\"a,b,c\"" ++ "\n" ++ "\"1,2,3\"") =
        parseCSVBuiltIn ("a,b,c" ++ "\n" ++ "1,2,3") ∧
      parseCSVBuiltIn ("\"a,b,c\"" ++ "\n" ++ "\"1,2,3\"") =
        .ok ⟨["a", "b", "c"],
          [[("a", .num (.fin 1)), ("b", .num (.fin 2)), ("c", .num (.fin 3))]]⟩ :=
  quotedRow_matches_standard "\n" (Or.inl rfl)

/-- C6: an input that is empty or consists only of whitespace has zero
non-blank lines, and the parser fails on it with the empty-input error
rather than returning a table. -/
theorem empty_input_error (text : String) (h : text.data.all isJsWhitespace = true) :
    parseCSVBuiltIn text = .error "Empty file" := by
  have hd : text.data.dropWhile isJsWhitespace = [] := by
    rw [List.dropWhile_eq_nil_iff]
    exact List.all_eq_true.mp h
  have ht : jsTrim text = "" := by
    unfold jsTrim
    rw [hd]
    rfl
  unfold parseCSVBuiltIn survivingLines
  rw [ht]
  rfl

theorem empty_input_error_witness :
    parseCSVBuiltIn "  \n \t " = .error "Empty file" :=
  empty_input_error "  \n \t " (by decide)

/-- C3 counterexample: the field `Infinity` is stored as a number (the
JavaScript `isNaN` test lets it through) although it fails every
"is this a valid finite number" test — so "stored as a number iff the
string passes a valid finite number test" is false on the code. -/
theorem numeric_typing_finite_cex :
    parseCSVBuiltIn "a\nInfinity" = .ok ⟨["a"], [[("a", .num .posInf)]]⟩ ∧
      (JSValue.num JSNumber.posInf).isNum = true ∧
      isValidFiniteNumberStr "Infinity" = false :=
  ⟨by with_unfolding_all rfl, rfl, by with_unfolding_all rfl⟩

/-- C3 (amended): a non-empty (after trim and quote strip) field is stored
as a number iff its JavaScript numeric coercion is not NaN — infinite
values included — and otherwise the string itself is kept; `PAYMENT`
stays a string and `9839.64` becomes the number 9839.64. -/
theorem numeric_typing_amended :
    (∀ raw : String, raw ≠ "" →
        ((typeField raw).isNum = true ↔ jsStringToNumber raw ≠ .nan)) ∧
      (∀ raw : String, (typeField raw).isNum = false → typeField raw = .str raw) ∧
      parseCSVBuiltIn "a,b\nPAYMENT,9839.64" =
        .ok ⟨["a", "b"], [[("a", .str "PAYMENT"), ("b", .num (.fin (9839.64 : ℚ)))]]⟩ := by
  refine ⟨?_, ?_, by with_unfolding_all rfl⟩
  · intro raw hraw
    unfold typeField jsIsNaN
    split
    · rename_i hcond
      simp only [JSValue.isNum]
      constructor
      · intro _ heq
        exact hcond.2 (by simp [heq])
      · intro _
        trivial
    · rename_i hcond
      simp only [JSValue.isNum]
      constructor
      · intro hfalse
        cases hfalse
      · intro hne
        exact absurd ⟨hraw, by simp [beq_iff_eq, hne]⟩ hcond
  · intro raw
    unfold typeField
    split
    · intro hh
      simp [JSValue.isNum] at hh
    · intro _
      rfl

theorem numeric_typing_amended_witness :
    (typeField "PAYMENT").isNum = true ↔ jsStringToNumber "PAYMENT" ≠ .nan :=
  numeric_typing_amended.1 "PAYMENT" (by decide)

/-- C4 counterexample: the input `a,b\n,,` has one non-blank data line,
yet the parser succeeds with zero rows (the line's record is all empty
strings and is dropped) — so "rows is empty only when the input had zero
non-blank data lines" is false on the code. -/
theorem rows_empty_cex :
    parseCSVBuiltIn "a,b\n,," = .ok ⟨["a", "b"], []⟩ ∧
      ((survivingLines "a,b\n,,").tail).length = 1 :=
  ⟨by with_unfolding_all rfl, by with_unfolding_all rfl⟩

/-- C5 counterexample: the data field `"1` carries a double-quote on its
leading end only; the spec's rule (strip only when both ends are quoted)
keeps it as the string `"1`, but the parser strips the lone quote and
stores the number 1 — so the claim is false on the code. -/
theorem quote_strip_cex :
    parseCSVBuiltIn "a\n\"1" = .ok ⟨["a"], [[("a", .num (.fin 1))]]⟩ ∧
      stripBothEndsOnly (jsTrim "\"1") = "\"1" ∧
      typeField (stripBothEndsOnly (jsTrim "\"1")) = .str "\"1" ∧
      JSValue.num (JSNumber.fin 1) ≠ JSValue.str "\"1" :=
  ⟨by with_unfolding_all rfl, by with_unfolding_all rfl, by with_unfolding_all rfl,
    by with_unfolding_all exact of_decide_eq_true rfl⟩

/-- C8: the record built from a data line ignores comma-split fields
beyond the header count, and fields missing at the tail behave exactly as
the empty string; e.g. `a,b` over data `1` gives `{a: 1, b: ""}` and `a`
over data `1,2,3` gives `{a: 1}`. -/
theorem field_count_mismatch :
    (∀ headers vals : List String,
        buildRecord headers vals = buildRecord headers (vals.take headers.length)) ∧
      (∀ headers vals : List String, vals.length ≤ headers.length →
        buildRecord headers vals =
          buildRecord headers
            (vals ++ List.replicate (headers.length - vals.length) "")) ∧
      parseCSVBuiltIn "a,b\n1" =
        .ok ⟨["a", "b"], [[("a", .num (.fin 1)), ("b", .str "")]]⟩ ∧
      parseCSVBuiltIn "a\n1,2,3" = .ok ⟨["a"], [[("a", .num (.fin 1))]]⟩ := by
  refine ⟨?_, ?_, by with_unfolding_all rfl, by with_unfolding_all rfl⟩
  · intro headers vals
    unfold buildRecord
    exact buildRecordAux_congr vals (vals.take headers.length) headers 0 []
      (fun j hj1 hj2 => (getD_take vals headers.length j (by omega)).symm)
  · intro headers vals _
    unfold buildRecord
    exact buildRecordAux_congr vals _ headers 0 []
      (fun j hj1 hj2 => (getD_append_replicate vals _ j).symm)

theorem field_count_mismatch_witness :
    buildRecord ["a", "b"] ["1"] =
      buildRecord ["a", "b"] (["1"] ++ List.replicate (["a", "b"].length - ["1"].length) "") :=
  field_count_mismatch.2.1 ["a", "b"] ["1"] (by decide)

/-- C9: when the parsed headers lack one or more required columns, the
caller's validation produces the error message listing exactly the
missing columns and the found columns; headers `["a","b"]` against
required `["a","b","c"]` report `c` missing and `a, b` found. -/
theorem missing_columns_report :
    (∀ headers : List String, (∃ c ∈ REQ_COLS, c ∉ headers) →
        validateColumns REQ_COLS headers =
          some ("Missing columns: " ++ joinComma (missingColumns REQ_COLS headers) ++
            ". Found: " ++ joinComma headers) ∧
          ∀ c, c ∈ missingColumns REQ_COLS headers ↔ c ∈ REQ_COLS ∧ c ∉ headers) ∧
      validateColumns ["a", "b", "c"] ["a", "b"] =
        some "Missing columns: c. Found: a, b" := by
  refine ⟨?_, by with_unfolding_all rfl⟩
  intro headers hex
  have hchar : ∀ c, c ∈ missingColumns REQ_COLS headers ↔ c ∈ REQ_COLS ∧ c ∉ headers := by
    intro c
    unfold missingColumns
    rw [List.mem_filter]
    simp [List.elem_iff]
  refine ⟨?_, hchar⟩
  rcases hex with ⟨c, hc1, hc2⟩
  have hmem : c ∈ missingColumns REQ_COLS headers := (hchar c).mpr ⟨hc1, hc2⟩
  have hne : (missingColumns REQ_COLS headers).isEmpty = false := by
    cases hm : missingColumns REQ_COLS headers
    · rw [hm] at hmem
      cases hmem
    · rfl
  simp [validateColumns, hne]

theorem missing_columns_report_witness :
    validateColumns REQ_COLS ["step"] =
      some ("Missing columns: " ++ joinComma (missingColumns REQ_COLS ["step"]) ++
        ". Found: " ++ joinComma ["step"]) ∧
      ∀ c, c ∈ missingColumns REQ_COLS ["step"] ↔ c ∈ REQ_COLS ∧ c ∉ ["step"] :=
  missing_columns_report.1 ["step"] ⟨"type", by decide, by decide⟩

/-- C2: on an input with at least one non-blank line, the parser takes the
quoted-row branch iff the first surviving trimmed line starts with a
double-quote, ends with a double-quote, and carries no further
double-quote strictly between the outer ones. -/
theorem quotedRow_detection_iff (text : String) (_h : survivingLines text ≠ []) :
    isQuotedRowOf text = true ↔ QuotedRowFormatSpec (firstLineOf text) := by
  have hslice : jsSliceOneNegOne (firstLineOf text) = betweenOuterQuotes (firstLineOf text) := by
    unfold jsSliceOneNegOne betweenOuterQuotes
    rw [List.dropLast_eq_take, List.drop_take, List.length_drop]
  unfold isQuotedRowOf QuotedRowFormatSpec
  rw [hslice]
  simp only [jsStartsWithQuote, jsEndsWithQuote, jsIncludesQuote, Bool.and_eq_true,
    Bool.not_eq_true', List.any_eq_false, beq_iff_eq, and_assoc]

theorem quotedRow_detection_iff_witness :
    isQuotedRowOf "\"a,b\"\n\"1,2\"" = true ↔
      QuotedRowFormatSpec (firstLineOf "\"a,b\"\n\"1,2\"") :=
  quotedRow_detection_iff "\"a,b\"\n\"1,2\"" (by decide)

/-- C4 (amended): on a successful parse, `rows` is empty iff every
non-blank data line built a record all of whose values are the empty
string — in particular when there were no data lines at all, but also
when every data line was commas and empty fields. -/
theorem rows_empty_amended (text : String) (table : ParsedTable)
    (h : parseCSVBuiltIn text = .ok table) :
    table.rows = [] ↔
      ∀ line ∈ dataLinesOf text, ∀ p ∈ recordOfLine (headersOf text) line,
        p.2 = JSValue.str "" := by
  rcases (parse_ok_iff text table).mp h with ⟨-, rfl⟩
  show rowsOf text = [] ↔ _
  unfold rowsOf
  rw [List.filter_eq_nil_iff]
  constructor
  · intro H line hline p hp
    have hk := H (recordOfLine (headersOf text) line) (List.mem_map.mpr ⟨line, hline, rfl⟩)
    have hk' : keptRecord (recordOfLine (headersOf text) line) = false := by
      revert hk
      cases keptRecord (recordOfLine (headersOf text) line) <;> simp
    rcases (keptRecord_eq_false_iff _).mp hk' p hp with h1 | h1
    · exact h1
    · exact absurd h1 (recordOfLine_not_null _ _ p hp).1
  · intro H r hr
    rcases List.mem_map.mp hr with ⟨line, hline, rfl⟩
    have hk : keptRecord (recordOfLine (headersOf text) line) = false :=
      (keptRecord_eq_false_iff _).mpr (fun p hp => Or.inl (H line hline p hp))
    simp [hk]

theorem rows_empty_amended_witness :
    (ParsedTable.mk ["a"] []).rows = [] ↔
      ∀ line ∈ dataLinesOf "a\n,", ∀ p ∈ recordOfLine (headersOf "a\n,") line,
        p.2 = JSValue.str "" :=
  rows_empty_amended "a\n," (ParsedTable.mk ["a"] []) (by with_unfolding_all rfl)

/-- C5 (amended): every header and data field is obtained by splitting on
commas, trimming, and then stripping one leading double-quote when
present and one trailing double-quote when present, each independently —
a field quoted on only one end loses that quote. -/
theorem quote_strip_amended :
    (∀ s : String, jsStripOuterQuotes s = stripEndsIndependently s) ∧
      (∀ headers line, recordOfLine headers line =
        buildRecord headers
          ((jsSplitComma line).map (fun v => stripEndsIndependently (jsTrim v)))) ∧
      (∀ text, isQuotedRowOf text = false →
        headersOf text =
          (jsSplitComma (firstLineOf text)).map
            (fun h => stripEndsIndependently (jsTrim h))) ∧
      parseCSVBuiltIn "a,\"b\n\"1,2" =
        .ok ⟨["a", "b"], [[("a", .num (.fin 1)), ("b", .num (.fin 2))]]⟩ := by
  have hfun : (fun v => jsStripOuterQuotes (jsTrim v)) =
      (fun v => stripEndsIndependently (jsTrim v)) :=
    funext (fun v => jsStripOuterQuotes_eq (jsTrim v))
  refine ⟨jsStripOuterQuotes_eq, ?_, ?_, by with_unfolding_all rfl⟩
  · intro headers line
    unfold recordOfLine
    rw [hfun]
  · intro text htext
    unfold headersOf
    rw [htext]
    simp only [Bool.false_eq_true, if_false]
    rw [hfun]

theorem quote_strip_amended_witness :
    headersOf "p,\"q\n1,2" =
      (jsSplitComma (firstLineOf "p,\"q\n1,2")).map
        (fun h => stripEndsIndependently (jsTrim h)) :=
  quote_strip_amended.2.2.1 "p,\"q\n1,2" (by with_unfolding_all rfl)

/-- C7: a built record is excluded from `rows` iff every one of its values
is the empty string, null, or undefined (null and undefined in fact never
occur); a data line of only commas, such as `,,,`, contributes no row. -/
theorem blank_record_dropped :
    (∀ headers line, keptRecord (recordOfLine headers line) = false ↔
        ∀ p ∈ recordOfLine headers line,
          p.2 = JSValue.str "" ∨ p.2 = JSValue.nullV ∨ p.2 = JSValue.undef) ∧
      (∀ text, rowsOf text =
        ((dataLinesOf text).map (recordOfLine (headersOf text))).filter keptRecord) ∧
      parseCSVBuiltIn "a,b,c\n,,," = .ok ⟨["a", "b", "c"], []⟩ := by
  refine ⟨?_, fun text => rfl, by with_unfolding_all rfl⟩
  intro headers line
  rw [keptRecord_eq_false_iff]
  constructor
  · intro H p hp
    rcases H p hp with h | h
    · exact Or.inl h
    · exact Or.inr (Or.inl h)
  · intro H p hp
    rcases H p hp with h | h | h
    · exact Or.inl h
    · exact Or.inr h
    · exact absurd h (recordOfLine_not_null headers line p hp).2

/-- C10: every value of every row of a successful parse is a number or a
string — never null, never undefined — so a record is dropped exactly
when all of its values are the empty string. -/
theorem values_never_null :
    (∀ (text : String) (table : ParsedTable), parseCSVBuiltIn text = .ok table →
        ∀ r ∈ table.rows, ∀ p ∈ r,
          (∃ n, p.2 = JSValue.num n) ∨ ∃ s, p.2 = JSValue.str s) ∧
      ∀ headers line, keptRecord (recordOfLine headers line) = false ↔
        ∀ p ∈ recordOfLine headers line, p.2 = JSValue.str "" := by
  constructor
  · intro text table h r hr p hp
    rcases (parse_ok_iff text table).mp h with ⟨-, rfl⟩
    have hr' : r ∈ rowsOf text := hr
    unfold rowsOf at hr'
    rcases List.mem_map.mp (List.mem_filter.mp hr').1 with ⟨line, hline, rfl⟩
    exact recordOfLine_snd _ line p hp
  · intro headers line
    rw [keptRecord_eq_false_iff]
    constructor
    · intro H p hp
      rcases H p hp with h | h
      · exact h
      · exact absurd h (recordOfLine_not_null headers line p hp).1
    · intro H p hp
      exact Or.inl (H p hp)

theorem values_never_null_witness :
    (∃ n, ((("a" : String), JSValue.num (JSNumber.fin 1))).2 = JSValue.num n) ∨
      ∃ s, ((("a" : String), JSValue.num (JSNumber.fin 1))).2 = JSValue.str s :=
  values_never_null.1 "a\n1" (ParsedTable.mk ["a"] [[("a", .num (.fin 1))]])
    (by with_unfolding_all rfl)
    [("a", .num (.fin 1))] (by simp)
    ("a", .num (.fin 1)) (by simp)

end CardGuard
